import Mathlib

/-!
Shallow embedding of `src/scte35_inserter.py` (SCTE-35 HLS marker inserter).

Conventions of the embedding:
* wall-clock values (`time.time()`) are rationals `ℚ`; each distinct call to
  `time.time()` in the source is a distinct input to the embedded function;
* Python `int` fields are `Int`; `Optional[int]` is `Option Int`;
* the binary cue encoding (library `threefive`) and the textual playlist
  parser/serializer (library `m3u8`) are collaborator boundaries: a marker tag
  is kept as the record of fields the source passes to the encoder, and the
  serialized playlist is kept as its list of lines;
* the output directory is an association list from file name to file data;
* fallible I/O (download success, save outcome, join timeout) is an oracle
  argument, so each failure shape in the source is a concrete input here.
-/

namespace Scte35

/-- `StreamConfig` dataclass of the source. -/
structure StreamConfig where
  stream_id : String
  input_url : String
  output_path : String
  ad_duration : Int
  ad_interval : Int
  enabled : Bool := true
deriving DecidableEq

/-- Which `encode_*_as_base64` method of `SCTE35Marker` produced a tag:
`cueOut` is segmentation type 0x34 (break start), `cueIn` is 0x35 (break end). -/
inductive MarkerKind where
  | cueOut
  | cueIn
deriving DecidableEq

/-- The data the source hands to the `threefive` encoder for one marker tag:
the `SCTE35Marker` dataclass fields plus which encode method is called.
`event_id` is an `Option` because the source can pass `self.ad_break_event_id`
which is `Optional[int]`. -/
structure SCTE35Marker where
  kind : MarkerKind
  event_id : Option Int
  duration : Int
  pts : ℚ
deriving DecidableEq

/-- A custom tag attached to a segment (`seg.custom_tags` entries). -/
inductive SegTag where
  | scte35 (m : SCTE35Marker)
  | cueInTag
  | plain (s : String)
deriving DecidableEq

/-- One playlist segment as used by the source: its uri, EXTINF duration and
the `custom_tags` list the source attaches. -/
structure Segment where
  uri : String
  duration : ℚ
  custom_tags : List SegTag
deriving DecidableEq

/-- A parsed playlist snapshot (`m3u8.M3U8` as the source uses it). -/
structure Playlist where
  segments : List Segment
  target_duration : Option ℚ
deriving DecidableEq

/-- The ad-break state fields held on `HLSProcessor`. -/
structure AdBreakState where
  in_ad_break : Bool
  ad_break_event_id : Option Int
  ad_break_start_time : Option ℚ
  next_marker_time : ℚ
deriving DecidableEq

/-- Ad-break state set up in `HLSProcessor.__init__` at clock value `now`. -/
def initAdBreakState (cfg : StreamConfig) (now : ℚ) : AdBreakState :=
  { in_ad_break := false
    ad_break_event_id := none
    ad_break_start_time := none
    next_marker_time := now + (cfg.ad_interval : ℚ) }

/-- Python `int()` truncation toward zero on a rational clock value. -/
def pyInt (q : ℚ) : Int := if 0 ≤ q then ⌊q⌋ else ⌈q⌉

/-- Apply `f` to the last element of a list (`playlist.segments[-1]`). -/
def modifyLast {α : Type} (f : α → α) : List α → List α
  | [] => []
  | [a] => [f a]
  | a :: b :: rest => a :: modifyLast f (b :: rest)

/-- The clock readings one call of `_process_playlist_for_markers` can make:
`now` at line 179, `tOut` inside `_insert_cue_out` (pts and event id),
`tIn` inside `_insert_cue_in` (pts). -/
structure Clock where
  now : ℚ
  tOut : ℚ
  tIn : ℚ
deriving DecidableEq

/-- `HLSProcessor._insert_cue_out`: on a nonempty playlist, assigns
`ad_break_event_id := int(time.time())`, and prepends an SCTE-35 cue-out tag to
the first segment's `custom_tags`. Returns the updated state, the mutated
playlist, and the list of markers handed to the encoder. -/
def insert_cue_out (cfg : StreamConfig) (s : AdBreakState) (tOut : ℚ)
    (pl : Playlist) : AdBreakState × Playlist × List SCTE35Marker :=
  if pl.segments = [] then (s, pl, [])
  else
    let event_id : Int := pyInt tOut
    let marker : SCTE35Marker :=
      { kind := MarkerKind.cueOut
        event_id := some event_id
        duration := cfg.ad_duration
        pts := tOut * 90000 }
    let s' := { s with ad_break_event_id := some event_id }
    let pl' := { pl with
      segments := pl.segments.modifyHead
        (fun sg => { sg with custom_tags := SegTag.scte35 marker :: sg.custom_tags }) }
    (s', pl', [marker])

/-- `HLSProcessor._insert_cue_in`: on a nonempty playlist, appends an SCTE-35
cue-in tag (carrying the stored `ad_break_event_id`) and the `#EXT-X-CUE-IN`
tag to the last segment's `custom_tags`. -/
def insert_cue_in (cfg : StreamConfig) (s : AdBreakState) (tIn : ℚ)
    (pl : Playlist) : Playlist × List SCTE35Marker :=
  if pl.segments = [] then (pl, [])
  else
    let marker : SCTE35Marker :=
      { kind := MarkerKind.cueIn
        event_id := s.ad_break_event_id
        duration := cfg.ad_duration
        pts := tIn * 90000 }
    let pl' := { pl with
      segments := modifyLast
        (fun sg => { sg with
          custom_tags := sg.custom_tags ++ [SegTag.scte35 marker, SegTag.cueInTag] })
        pl.segments }
    (pl', [marker])

/-- `HLSProcessor._process_playlist_for_markers` (lines 174-200).
When `in_ad_break` holds but `ad_break_start_time` is `none`, the source would
raise a `TypeError` at line 184 before any mutation; the exception is swallowed
by the loop's `except`, so the net effect on the state is no change. -/
def process_playlist_for_markers (cfg : StreamConfig) (s : AdBreakState)
    (c : Clock) (pl : Playlist) : AdBreakState × Playlist × List SCTE35Marker :=
  if s.in_ad_break then
    match s.ad_break_start_time with
    | none => (s, pl, [])
    | some st =>
      if c.now - st ≥ (cfg.ad_duration : ℚ) then
        let r := insert_cue_in cfg s c.tIn pl
        ({ in_ad_break := false
           ad_break_event_id := none
           ad_break_start_time := none
           next_marker_time := c.now + (cfg.ad_interval : ℚ) }, r.1, r.2)
      else (s, pl, [])
  else
    if c.now ≥ s.next_marker_time then
      let r := insert_cue_out cfg s c.tOut pl
      ({ r.1 with in_ad_break := true, ad_break_start_time := some c.now },
       r.2.1, r.2.2)
    else (s, pl, [])

/-- State component of one marker step. -/
def stepState (cfg : StreamConfig) (s : AdBreakState) (ci : Clock × Playlist) :
    AdBreakState :=
  (process_playlist_for_markers cfg s ci.1 ci.2).1

/-- Markers emitted by one marker step. -/
def stepMarkers (cfg : StreamConfig) (s : AdBreakState) (ci : Clock × Playlist) :
    List SCTE35Marker :=
  (process_playlist_for_markers cfg s ci.1 ci.2).2.2

/-- Ad-break state after a sequence of marker-step calls. -/
def runState (cfg : StreamConfig) (s : AdBreakState) :
    List (Clock × Playlist) → AdBreakState
  | [] => s
  | ci :: rest => runState cfg (stepState cfg s ci) rest

/-- Ad-break state just before the `k`-th marker step of a run. -/
def stateAt (cfg : StreamConfig) (s0 : AdBreakState)
    (inputs : List (Clock × Playlist)) (k : ℕ) : AdBreakState :=
  runState cfg s0 (inputs.take k)

/-- Placeholder input, only used out of range by `List.getD`. -/
def dfltInput : Clock × Playlist := (⟨0, 0, 0⟩, ⟨[], none⟩)

/-- Markers emitted by the `k`-th marker step of a run. -/
def evAt (cfg : StreamConfig) (s0 : AdBreakState)
    (inputs : List (Clock × Playlist)) (k : ℕ) : List SCTE35Marker :=
  stepMarkers cfg (stateAt cfg s0 inputs k) (inputs.getD k dfltInput)

/-- One line of the serialized playlist text. `extinf d` stands for a
`#EXTINF:d,` line; `uriLine` for a segment uri line. -/
inductive PLine where
  | extinf (d : ℚ)
  | uriLine (u : String)
deriving DecidableEq

/-- The part of `playlist.dumps()` the source's EXTINF regex can act on: one
`#EXTINF` line followed by the uri line for each segment, in order. -/
def dumps (pl : Playlist) : List PLine :=
  (pl.segments.map (fun sg => [PLine.extinf sg.duration, PLine.uriLine sg.uri])).flatten

/-- Python `round()` (banker's rounding: ties go to the even integer) on an
exact rational duration. -/
def pyRound (q : ℚ) : Int :=
  if q - (⌊q⌋ : ℚ) = 1 / 2 then (if ⌊q⌋ % 2 = 0 then ⌊q⌋ else ⌊q⌋ + 1)
  else round q

/-- Effect of the source's regex substitution
`#EXTINF:([0-9]+(?:\.[0-9]+)?),` to `#EXTINF:int(round(float(...)))` on one
line.  The pattern matches only an unsigned decimal numeral (digits with an
optional digit fraction), i.e. exactly the durations the serializer renders as
a plain nonnegative decimal; under this embedding (durations as exact
rationals rendered in plain decimal) those are the nonnegative durations.  A
duration outside the pattern — e.g. a negative one coming from a hostile
upstream playlist — is left unrewritten. -/
def roundExtinfLine : PLine → PLine
  | PLine.extinf d =>
    if 0 ≤ d then PLine.extinf ((pyRound d : Int) : ℚ) else PLine.extinf d
  | l => l

/-- The playlist text actually written by `_save_playlist`: the dumped text
with every EXTINF duration rewritten by Python `round`. -/
def roundDumps (pl : Playlist) : List PLine :=
  (dumps pl).map roundExtinfLine

/-- Data of one file in the output directory: a downloaded segment body, or
the written playlist text. -/
inductive FileData where
  | segData (content : String)
  | playlistData (lines : List PLine)
deriving DecidableEq

/-- The output directory: file name to file data. Every entry is a regular
file (the source only ever creates files there). -/
def FS : Type := List (String × FileData)

/-- Lookup in an association list keyed by strings. -/
def alookup {α : Type} : List (String × α) → String → Option α
  | [], _ => none
  | (m, d) :: rest, n => if m = n then some d else alookup rest n

/-- Remove every binding of key `n`. -/
def adelete {α : Type} (n : String) : List (String × α) → List (String × α)
  | [] => []
  | (m, d) :: rest => if m = n then adelete n rest else (m, d) :: adelete n rest

/-- `os.rename(tmp, path)`: (over)write file `n` with data `d`. -/
def fsSet (n : String) (d : FileData) (fs : FS) : FS := (n, d) :: adelete n fs

/-- `segment_path.exists()` / content of a file. -/
def fsLookup (fs : FS) (n : String) : Option FileData := alookup fs n

/-- Python `str.endswith`: `t` is a suffix of `s`. -/
def pyEndsWith (s t : String) : Bool :=
  s.data.drop (s.data.length - t.data.length) == t.data

/-- `Path(uri).name`: the final path component (everything after the last
`/`). -/
def baseName (u : String) : String :=
  { data := (u.data.reverse.takeWhile (fun c => !(c == '/'))).reverse }

/-- The set (as a list) of segment file names referenced by the snapshot,
`{Path(seg.uri).name for seg in playlist.segments}`. -/
def segmentNames (pl : Playlist) : List String :=
  pl.segments.map (fun sg => baseName sg.uri)

/-- The download list built by `_process_segments`: referenced segments whose
file does not already exist locally, in playlist order. -/
def segments_to_download (fs : FS) (pl : Playlist) : List String :=
  (segmentNames pl).filter (fun n => (fsLookup fs n).isNone)

/-- Run the scheduled downloads. `dlOk n` says whether the download of `n`
succeeds (network and write errors are logged and skipped in the source); a
successful download materializes the fetched body via temp-file plus rename.
The source runs these in a bounded pool; distinct names touch distinct files,
so the batch is embedded as the fold over the scheduled list. -/
def download_all (dlOk : String → Bool) (fetchContent : String → String) :
    List String → FS → FS
  | [], fs => fs
  | n :: rest, fs =>
    download_all dlOk fetchContent rest
      (if dlOk n then fsSet n (FileData.segData (fetchContent n)) fs else fs)

/-- `HLSProcessor._process_segments`: skip everything if the directory is not
writable; otherwise compute the download list against the current directory
contents, run the batch, and count successes. Returns the new directory and
the increment of `segments_processed`. -/
def process_segments (writable : Bool) (dlOk : String → Bool)
    (fetchContent : String → String) (fs : FS) (pl : Playlist) : FS × ℕ :=
  if writable then
    (download_all dlOk fetchContent (segments_to_download fs pl) fs,
     (segments_to_download fs pl).countP dlOk)
  else (fs, 0)

/-- Body of the loop in `_cleanup_old_segments`: delete every regular file
whose name ends in `.ts` and is not referenced by the snapshot. -/
def cleanupList (ref : List String) : FS → FS
  | [] => []
  | (n, d) :: rest =>
    if pyEndsWith n ".ts" = true ∧ n ∉ ref then cleanupList ref rest
    else (n, d) :: cleanupList ref rest

/-- `HLSProcessor._cleanup_old_segments`. -/
def cleanup_old_segments (fs : FS) (pl : Playlist) : FS :=
  cleanupList (segmentNames pl) fs

/-- Names deleted by a cleanup pass (for the cycle's action log). -/
def prunedNames (ref : List String) : FS → List String
  | [] => []
  | (n, _) :: rest =>
    if pyEndsWith n ".ts" = true ∧ n ∉ ref then n :: prunedNames ref rest
    else prunedNames ref rest

/-- One reconciliation pass: download the missing referenced segments, then
prune the stale ones (steps 4 and 5 of the worker cycle). -/
def reconcile (writable : Bool) (dlOk : String → Bool)
    (fetchContent : String → String) (fs : FS) (pl : Playlist) : FS :=
  cleanup_old_segments (process_segments writable dlOk fetchContent fs pl).1 pl

/-- Per-worker mutable state of `HLSProcessor`: the `running` flag, the
`_stop_event`, the processed-segment counter and the ad-break fields. -/
structure HLSProcessorState where
  running : Bool
  stop_event : Bool
  segments_processed : ℕ
  ad : AdBreakState
deriving DecidableEq

/-- `HLSProcessor.__init__` at clock value `now` (the thread, once started,
sets `running := true` at the top of `process_stream`). -/
def initProcessor (cfg : StreamConfig) (now : ℚ) : HLSProcessorState :=
  { running := false
    stop_event := false
    segments_processed := 0
    ad := initAdBreakState cfg now }

/-- `HLSProcessor.stop`. -/
def stop (p : HLSProcessorState) : HLSProcessorState :=
  { p with running := false, stop_event := true }

/-- A worker's view of the world: its processor state and its output
directory. -/
structure WorkerState where
  proc : HLSProcessorState
  fs : FS

/-- How the `try` block of `_save_playlist` terminates. -/
inductive SaveOutcome where
  | ok
  | permissionDenied
  | otherError
deriving DecidableEq

/-- Externally visible things one cycle does, in order. -/
inductive CycleAction where
  | write
  | download (n : String)
  | prune (n : String)
  | sleep (d : ℚ)
deriving DecidableEq

/-- `HLSProcessor._save_playlist`: on success, write `playlist.m3u8` (the
dumped text with EXTINF durations rounded); on `PermissionError`, log and call
`self.stop()`; on any other exception, log only. -/
def save_playlist (outcome : SaveOutcome) (pl : Playlist) (ws : WorkerState) :
    WorkerState × List CycleAction :=
  match outcome with
  | SaveOutcome.ok =>
    ({ ws with fs := fsSet "playlist.m3u8" (FileData.playlistData (roundDumps pl)) ws.fs },
     [CycleAction.write])
  | SaveOutcome.permissionDenied => ({ ws with proc := stop ws.proc }, [])
  | SaveOutcome.otherError => (ws, [])

/-- Sleep length at the end of a successful cycle:
`max(1, target_duration / 2 if target_duration else 2)` with Python
truthiness (a target duration of 0 behaves like absent). -/
def sleepDuration (pl : Playlist) : ℚ :=
  max 1 (match pl.target_duration with
         | some td => if td = 0 then 2 else td / 2
         | none => 2)

/-- Environment of one iteration of the `process_stream` loop: the fetch
result, the clock readings, and the I/O oracles. -/
structure CycleEnv where
  fetched : Option Playlist
  clock : Clock
  saveOutcome : SaveOutcome
  writable : Bool
  dlOk : String → Bool
  fetchContent : String → String

/-- One iteration of the `while` loop of `HLSProcessor.process_stream`
(lines 127-156): fetch, marker step, save, `running` check, segment download,
cleanup, adaptive sleep; a failed fetch sleeps 2 and restarts the loop. -/
def process_stream_cycle (cfg : StreamConfig) (env : CycleEnv)
    (ws : WorkerState) : WorkerState × List CycleAction :=
  match env.fetched with
  | none => (ws, [CycleAction.sleep 2])
  | some pl =>
    let r := process_playlist_for_markers cfg ws.proc.ad env.clock pl
    let pl' := r.2.1
    let ws1 : WorkerState := { ws with proc := { ws.proc with ad := r.1 } }
    let sres := save_playlist env.saveOutcome pl' ws1
    let ws2 := sres.1
    if ws2.proc.running = false then (ws2, sres.2)
    else
      let dl := process_segments env.writable env.dlOk env.fetchContent ws2.fs pl'
      let dlActs := (segments_to_download ws2.fs pl').map CycleAction.download
      let pruned := prunedNames (segmentNames pl') dl.1
      let ws3 : WorkerState :=
        { proc := { ws2.proc with
            segments_processed := ws2.proc.segments_processed + dl.2 }
          fs := cleanup_old_segments dl.1 pl' }
      (ws3, sres.2 ++ dlActs ++ pruned.map CycleAction.prune
        ++ [CycleAction.sleep (sleepDuration pl')])

/-- `StreamManager` plus the persisted `streams.json` contents
(`save_streams_config` writes the list of configs currently registered). -/
structure StreamManager where
  streams : List (String × HLSProcessorState)
  configs : List (String × StreamConfig)
  threads : List String
  persisted : List StreamConfig

/-- `save_streams_config(self.configs)`. -/
def save_streams_config (m : StreamManager) : StreamManager :=
  { m with persisted := m.configs.map Prod.snd }

/-- Drop a string from a list (deleting a key from `self.threads`). -/
def sdelete (n : String) : List String → List String
  | [] => []
  | m :: rest => if m = n then sdelete n rest else m :: sdelete n rest

/-- `StreamManager.add_stream` at clock value `now`: duplicate ids are
rejected; otherwise the new processor and thread are recorded under the id and
the configuration set is persisted. -/
def add_stream (m : StreamManager) (cfg : StreamConfig) (now : ℚ) :
    Bool × StreamManager :=
  if (alookup m.streams cfg.stream_id).isSome then (false, m)
  else
    let m' : StreamManager :=
      { streams := (cfg.stream_id, initProcessor cfg now) :: m.streams
        configs := (cfg.stream_id, cfg) :: m.configs
        threads := cfg.stream_id :: m.threads
        persisted := m.persisted }
    (true, save_streams_config m')

/-- `StreamManager.remove_stream`: unknown ids are rejected; otherwise the
worker is signalled to stop, the thread is joined with a 10s timeout
(`joinTimedOut` records whether the join timed out, which only changes a log
line), the id is deleted from the three maps regardless, and the configuration
set is persisted. The third component exposes the signalled processor state of
the removed worker. -/
def remove_stream (m : StreamManager) (sid : String) (joinTimedOut : Bool) :
    Bool × StreamManager × Option HLSProcessorState :=
  match alookup m.streams sid with
  | none => (false, m, none)
  | some proc =>
    let m' : StreamManager :=
      { streams := adelete sid m.streams
        configs := adelete sid m.configs
        threads := sdelete sid m.threads
        persisted := m.persisted }
    (true, save_streams_config m', some (stop proc))

/-! ### Concrete instances used by counterexamples and witnesses -/

def cfgEx : StreamConfig :=
  { stream_id := "s1", input_url := "http://in/x.m3u8", output_path := "out",
    ad_duration := 5, ad_interval := 10 }

def idle0 : AdBreakState :=
  { in_ad_break := false, ad_break_event_id := none,
    ad_break_start_time := none, next_marker_time := 0 }

def emptyPl : Playlist := { segments := [], target_duration := none }

def segAEx : Segment := { uri := "media/a.ts", duration := 4, custom_tags := [] }

def plAEx : Playlist := { segments := [segAEx], target_duration := some 6 }

def clockEx (t : ℚ) : Clock := { now := t, tOut := t, tIn := t }

def clockOutEx : Clock := { now := 0, tOut := 7, tIn := 0 }

def clockInEx : Clock := { now := 5, tOut := 0, tIn := 6 }

def inputsEx : List (Clock × Playlist) := [(clockOutEx, plAEx), (clockInEx, plAEx)]

def moEx : SCTE35Marker :=
  { kind := MarkerKind.cueOut, event_id := some 7, duration := 5, pts := 7 * 90000 }

def miEx : SCTE35Marker :=
  { kind := MarkerKind.cueIn, event_id := some 7, duration := 5, pts := 6 * 90000 }

def plBEx : Playlist :=
  { segments := [{ uri := "seg/b.ts", duration := 4, custom_tags := [] },
                 { uri := "seg/d.ts", duration := 4, custom_tags := [] }]
    target_duration := some 6 }

def fsEx : FS := [("a.ts", FileData.segData "A"), ("b.ts", FileData.segData "B")]

def allOkEx : String → Bool := fun _ => true

def fetchEx : String → String := fun n => n

def plHalfEx : Playlist :=
  { segments := [{ uri := "h.ts", duration := 11 / 2, custom_tags := [] }]
    target_duration := some 6 }

def plNegEx : Playlist :=
  { segments := [{ uri := "n.ts", duration := -(3 / 2), custom_tags := [] }]
    target_duration := some 6 }

def wsEx : WorkerState :=
  { proc := { running := true, stop_event := false, segments_processed := 0,
              ad := idle0 }
    fs := [] }

def envNoneEx : CycleEnv :=
  { fetched := none, clock := clockEx 0, saveOutcome := SaveOutcome.ok,
    writable := true, dlOk := allOkEx, fetchContent := fetchEx }

def mgrEx : StreamManager :=
  { streams := [], configs := [], threads := [], persisted := [] }

def mgrOneEx : StreamManager := (add_stream mgrEx cfgEx 0).2

/-! ### Characterization of one marker step -/

theorem step_idle_not_due {cfg : StreamConfig} {s : AdBreakState} {c : Clock}
    {pl : Playlist} (h1 : s.in_ad_break = false)
    (h2 : ¬ s.next_marker_time ≤ c.now) :
    process_playlist_for_markers cfg s c pl = (s, pl, []) := by
  simp [process_playlist_for_markers, h1, ge_iff_le, h2]

theorem step_idle_due {cfg : StreamConfig} {s : AdBreakState} {c : Clock}
    {pl : Playlist} (h1 : s.in_ad_break = false)
    (h2 : s.next_marker_time ≤ c.now) :
    process_playlist_for_markers cfg s c pl =
      ({ (insert_cue_out cfg s c.tOut pl).1 with
          in_ad_break := true, ad_break_start_time := some c.now },
       (insert_cue_out cfg s c.tOut pl).2.1,
       (insert_cue_out cfg s c.tOut pl).2.2) := by
  simp [process_playlist_for_markers, h1, ge_iff_le, h2]

theorem step_break_none {cfg : StreamConfig} {s : AdBreakState} {c : Clock}
    {pl : Playlist} (h1 : s.in_ad_break = true)
    (h2 : s.ad_break_start_time = none) :
    process_playlist_for_markers cfg s c pl = (s, pl, []) := by
  simp [process_playlist_for_markers, h1, h2]

theorem step_break_early {cfg : StreamConfig} {s : AdBreakState} {c : Clock}
    {pl : Playlist} {st : ℚ} (h1 : s.in_ad_break = true)
    (h2 : s.ad_break_start_time = some st)
    (h3 : ¬ (cfg.ad_duration : ℚ) ≤ c.now - st) :
    process_playlist_for_markers cfg s c pl = (s, pl, []) := by
  simp [process_playlist_for_markers, h1, h2, ge_iff_le, h3]

theorem step_break_done {cfg : StreamConfig} {s : AdBreakState} {c : Clock}
    {pl : Playlist} {st : ℚ} (h1 : s.in_ad_break = true)
    (h2 : s.ad_break_start_time = some st)
    (h3 : (cfg.ad_duration : ℚ) ≤ c.now - st) :
    process_playlist_for_markers cfg s c pl =
      ({ in_ad_break := false, ad_break_event_id := none,
         ad_break_start_time := none,
         next_marker_time := c.now + (cfg.ad_interval : ℚ) },
       (insert_cue_in cfg s c.tIn pl).1, (insert_cue_in cfg s c.tIn pl).2) := by
  simp [process_playlist_for_markers, h1, h2, ge_iff_le, h3]

theorem insert_cue_out_empty {cfg : StreamConfig} {s : AdBreakState} {t : ℚ}
    {pl : Playlist} (h : pl.segments = []) :
    insert_cue_out cfg s t pl = (s, pl, []) := by
  simp [insert_cue_out, h]

theorem insert_cue_out_nonempty {cfg : StreamConfig} {s : AdBreakState} {t : ℚ}
    {pl : Playlist} (h : pl.segments ≠ []) :
    (insert_cue_out cfg s t pl).1
        = { s with ad_break_event_id := some (pyInt t) }
    ∧ (insert_cue_out cfg s t pl).2.2
        = [{ kind := MarkerKind.cueOut, event_id := some (pyInt t),
             duration := cfg.ad_duration, pts := t * 90000 }] := by
  simp [insert_cue_out, h]

theorem insert_cue_in_empty {cfg : StreamConfig} {s : AdBreakState} {t : ℚ}
    {pl : Playlist} (h : pl.segments = []) :
    insert_cue_in cfg s t pl = (pl, []) := by
  simp [insert_cue_in, h]

theorem insert_cue_in_nonempty {cfg : StreamConfig} {s : AdBreakState} {t : ℚ}
    {pl : Playlist} (h : pl.segments ≠ []) :
    (insert_cue_in cfg s t pl).2
        = [{ kind := MarkerKind.cueIn, event_id := s.ad_break_event_id,
             duration := cfg.ad_duration, pts := t * 90000 }] := by
  simp [insert_cue_in, h]

theorem stepState_in_break_stable {cfg : StreamConfig} {s : AdBreakState}
    {ci : Clock × Playlist} (h1 : s.in_ad_break = true)
    (h2 : (stepState cfg s ci).in_ad_break = true) :
    stepState cfg s ci = s := by
  unfold stepState at h2 ⊢
  cases hst : s.ad_break_start_time with
  | none => rw [step_break_none h1 hst]
  | some st =>
    by_cases h3 : (cfg.ad_duration : ℚ) ≤ ci.1.now - st
    · rw [step_break_done h1 hst h3] at h2
      simp at h2
    · rw [step_break_early h1 hst h3]

theorem stepState_open_due {cfg : StreamConfig} {s : AdBreakState}
    {ci : Clock × Playlist} (h1 : s.in_ad_break = false)
    (h2 : (stepState cfg s ci).in_ad_break = true) :
    s.next_marker_time ≤ ci.1.now := by
  by_cases h : s.next_marker_time ≤ ci.1.now
  · exact h
  · exfalso
    unfold stepState at h2
    rw [step_idle_not_due h1 h] at h2
    rw [h1] at h2
    exact Bool.false_ne_true h2

theorem stepState_close_cond {cfg : StreamConfig} {s : AdBreakState}
    {ci : Clock × Playlist} (h1 : s.in_ad_break = true)
    (h2 : (stepState cfg s ci).in_ad_break = false) :
    ∃ st, s.ad_break_start_time = some st
      ∧ (cfg.ad_duration : ℚ) ≤ ci.1.now - st := by
  unfold stepState at h2
  cases hst : s.ad_break_start_time with
  | none =>
    rw [step_break_none h1 hst] at h2
    rw [h1] at h2
    simp at h2
  | some st =>
    by_cases h3 : (cfg.ad_duration : ℚ) ≤ ci.1.now - st
    · exact ⟨st, rfl, h3⟩
    · rw [step_break_early h1 hst h3] at h2
      rw [h1] at h2
      simp at h2

theorem marker_mem_cueOut {cfg : StreamConfig} {s : AdBreakState} {c : Clock}
    {pl : Playlist} {mk : SCTE35Marker}
    (h : mk ∈ (process_playlist_for_markers cfg s c pl).2.2)
    (hk : mk.kind = MarkerKind.cueOut) :
    s.in_ad_break = false
    ∧ mk.event_id = some (pyInt c.tOut)
    ∧ (process_playlist_for_markers cfg s c pl).1
        = { in_ad_break := true, ad_break_event_id := some (pyInt c.tOut),
            ad_break_start_time := some c.now,
            next_marker_time := s.next_marker_time } := by
  cases h1 : s.in_ad_break with
  | true =>
    exfalso
    cases hst : s.ad_break_start_time with
    | none => rw [step_break_none h1 hst] at h; simp at h
    | some st =>
      by_cases h3 : (cfg.ad_duration : ℚ) ≤ c.now - st
      · rw [step_break_done h1 hst h3] at h
        by_cases hpl : pl.segments = []
        · rw [insert_cue_in_empty hpl] at h; simp at h
        · rw [insert_cue_in_nonempty hpl] at h
          simp at h
          rw [h] at hk
          simp at hk
      · rw [step_break_early h1 hst h3] at h; simp at h
  | false =>
    by_cases h2 : s.next_marker_time ≤ c.now
    · rw [step_idle_due h1 h2] at h ⊢
      by_cases hpl : pl.segments = []
      · rw [insert_cue_out_empty hpl] at h; simp at h
      · have hio := @insert_cue_out_nonempty cfg s c.tOut pl hpl
        rw [hio.2] at h
        simp at h
        refine ⟨rfl, ?_, ?_⟩
        · rw [h]
        · rw [hio.1]
    · exfalso
      rw [step_idle_not_due h1 h2] at h
      simp at h

theorem marker_mem_cueIn {cfg : StreamConfig} {s : AdBreakState} {c : Clock}
    {pl : Playlist} {mk : SCTE35Marker}
    (h : mk ∈ (process_playlist_for_markers cfg s c pl).2.2)
    (hk : mk.kind = MarkerKind.cueIn) :
    s.in_ad_break = true ∧ mk.event_id = s.ad_break_event_id := by
  cases h1 : s.in_ad_break with
  | true =>
    refine ⟨rfl, ?_⟩
    cases hst : s.ad_break_start_time with
    | none => rw [step_break_none h1 hst] at h; simp at h
    | some st =>
      by_cases h3 : (cfg.ad_duration : ℚ) ≤ c.now - st
      · rw [step_break_done h1 hst h3] at h
        by_cases hpl : pl.segments = []
        · rw [insert_cue_in_empty hpl] at h; simp at h
        · rw [insert_cue_in_nonempty hpl] at h
          simp at h
          rw [h]
      · rw [step_break_early h1 hst h3] at h; simp at h
  | false =>
    exfalso
    by_cases h2 : s.next_marker_time ≤ c.now
    · rw [step_idle_due h1 h2] at h
      by_cases hpl : pl.segments = []
      · rw [insert_cue_out_empty hpl] at h; simp at h
      · rw [(@insert_cue_out_nonempty cfg s c.tOut pl hpl).2] at h
        simp at h
        rw [h] at hk
        simp at hk
    · rw [step_idle_not_due h1 h2] at h
      simp at h

theorem stateAt_zero (cfg : StreamConfig) (s0 : AdBreakState)
    (inputs : List (Clock × Playlist)) : stateAt cfg s0 inputs 0 = s0 := rfl

theorem stateAt_succ_of_lt (cfg : StreamConfig) :
    ∀ (inputs : List (Clock × Playlist)) (k : ℕ) (s0 : AdBreakState),
      k < inputs.length →
      stateAt cfg s0 inputs (k + 1)
        = stepState cfg (stateAt cfg s0 inputs k) (inputs.getD k dfltInput) := by
  intro inputs
  induction inputs with
  | nil => intro k s0 hk; simp at hk
  | cons i rest ih =>
    intro k s0 hk
    cases k with
    | zero => simp [stateAt, runState]
    | succ k =>
      have hk' : k < rest.length := by simpa using hk
      simpa [stateAt, runState] using ih k (stepState cfg s0 i) hk'

theorem stepState_idle_stable {cfg : StreamConfig} {s : AdBreakState}
    {ci : Clock × Playlist} (h1 : s.in_ad_break = false)
    (h2 : (stepState cfg s ci).in_ad_break = false) :
    stepState cfg s ci = s := by
  unfold stepState at h2 ⊢
  by_cases h : s.next_marker_time ≤ ci.1.now
  · rw [step_idle_due h1 h] at h2
    simp at h2
  · rw [step_idle_not_due h1 h]

/-! ### Claim C1 -/

/-- **C1, counterexample.** The claim says that on an empty snapshot the
marker step leaves `in_ad_break`, `ad_break_event_id`, `ad_break_start_time`
and `next_marker_time` all unchanged.  Concretely: with `ad_interval = 10`,
an idle state due at time 0, clock 0 and an empty playlist, the step flips
`in_ad_break` from `false` to `true` and records a start time, even though the
snapshot has zero segments. -/
theorem c1_counterexample :
    emptyPl.segments = []
    ∧ idle0.in_ad_break = false
    ∧ (process_playlist_for_markers cfgEx idle0 (clockEx 0) emptyPl).1.in_ad_break
        = true
    ∧ (process_playlist_for_markers cfgEx idle0 (clockEx 0) emptyPl).1.ad_break_start_time
        = some 0 := by
  refine ⟨rfl, rfl, ?_, ?_⟩ <;>
    norm_num [process_playlist_for_markers, insert_cue_out, cfgEx, idle0,
      clockEx, emptyPl]

/-- **C1, amended.** For every playlist snapshot with zero segments the
per-cycle marker step emits no marker and leaves the snapshot unchanged, and
the four state fields are unchanged whenever no timing condition fires; but
when a timing condition does fire the phase transition still happens: an idle
state whose `next_marker_time` has been reached still enters the break
(recording `ad_break_start_time`, leaving the stored event id unassigned), and
a break whose configured duration has elapsed still returns to idle and resets
`next_marker_time`. -/
theorem c1_empty_snapshot (cfg : StreamConfig) (s : AdBreakState) (c : Clock)
    (pl : Playlist) (hpl : pl.segments = []) :
    (process_playlist_for_markers cfg s c pl).2.2 = []
    ∧ (process_playlist_for_markers cfg s c pl).2.1 = pl
    ∧ (s.in_ad_break = false → ¬ s.next_marker_time ≤ c.now →
        (process_playlist_for_markers cfg s c pl).1 = s)
    ∧ (s.in_ad_break = false → s.next_marker_time ≤ c.now →
        (process_playlist_for_markers cfg s c pl).1
          = { s with in_ad_break := true, ad_break_start_time := some c.now })
    ∧ (s.in_ad_break = true → s.ad_break_start_time = none →
        (process_playlist_for_markers cfg s c pl).1 = s)
    ∧ (∀ st, s.in_ad_break = true → s.ad_break_start_time = some st →
        ¬ (cfg.ad_duration : ℚ) ≤ c.now - st →
        (process_playlist_for_markers cfg s c pl).1 = s)
    ∧ (∀ st, s.in_ad_break = true → s.ad_break_start_time = some st →
        (cfg.ad_duration : ℚ) ≤ c.now - st →
        (process_playlist_for_markers cfg s c pl).1
          = { in_ad_break := false, ad_break_event_id := none,
              ad_break_start_time := none,
              next_marker_time := c.now + (cfg.ad_interval : ℚ) }) := by
  have hmain : (process_playlist_for_markers cfg s c pl).2.2 = []
      ∧ (process_playlist_for_markers cfg s c pl).2.1 = pl := by
    cases h1 : s.in_ad_break with
    | false =>
      by_cases h2 : s.next_marker_time ≤ c.now
      · rw [step_idle_due h1 h2, insert_cue_out_empty hpl]
        exact ⟨rfl, rfl⟩
      · rw [step_idle_not_due h1 h2]
        exact ⟨rfl, rfl⟩
    | true =>
      cases hst : s.ad_break_start_time with
      | none =>
        rw [step_break_none h1 hst]
        exact ⟨rfl, rfl⟩
      | some st =>
        by_cases h3 : (cfg.ad_duration : ℚ) ≤ c.now - st
        · rw [step_break_done h1 hst h3, insert_cue_in_empty hpl]
          exact ⟨rfl, rfl⟩
        · rw [step_break_early h1 hst h3]
          exact ⟨rfl, rfl⟩
  refine ⟨hmain.1, hmain.2, ?_, ?_, ?_, ?_, ?_⟩
  · intro h1 h2
    rw [step_idle_not_due h1 h2]
  · intro h1 h2
    rw [step_idle_due h1 h2, insert_cue_out_empty hpl]
  · intro h1 h2
    rw [step_break_none h1 h2]
  · intro st h1 h2 h3
    rw [step_break_early h1 h2 h3]
  · intro st h1 h2 h3
    rw [step_break_done h1 h2 h3]

/-- **C1, amended, witness.** The amended statement evaluated at a concrete
empty snapshot. -/
theorem c1_empty_snapshot_witness :
    emptyPl.segments = []
    ∧ ((process_playlist_for_markers cfgEx idle0 (clockEx 0) emptyPl).2.2 = []
      ∧ (process_playlist_for_markers cfgEx idle0 (clockEx 0) emptyPl).2.1 = emptyPl
      ∧ (idle0.in_ad_break = false → ¬ idle0.next_marker_time ≤ (clockEx 0).now →
          (process_playlist_for_markers cfgEx idle0 (clockEx 0) emptyPl).1 = idle0)
      ∧ (idle0.in_ad_break = false → idle0.next_marker_time ≤ (clockEx 0).now →
          (process_playlist_for_markers cfgEx idle0 (clockEx 0) emptyPl).1
            = { idle0 with
                in_ad_break := true
                ad_break_start_time := some (clockEx 0).now })
      ∧ (idle0.in_ad_break = true → idle0.ad_break_start_time = none →
          (process_playlist_for_markers cfgEx idle0 (clockEx 0) emptyPl).1 = idle0)
      ∧ (∀ st, idle0.in_ad_break = true → idle0.ad_break_start_time = some st →
          ¬ (cfgEx.ad_duration : ℚ) ≤ (clockEx 0).now - st →
          (process_playlist_for_markers cfgEx idle0 (clockEx 0) emptyPl).1 = idle0)
      ∧ (∀ st, idle0.in_ad_break = true → idle0.ad_break_start_time = some st →
          (cfgEx.ad_duration : ℚ) ≤ (clockEx 0).now - st →
          (process_playlist_for_markers cfgEx idle0 (clockEx 0) emptyPl).1
            = { in_ad_break := false, ad_break_event_id := none,
                ad_break_start_time := none,
                next_marker_time := (clockEx 0).now + (cfgEx.ad_interval : ℚ) })) :=
  ⟨rfl, c1_empty_snapshot cfgEx idle0 (clockEx 0) emptyPl rfl⟩

/-! ### Claim C2 -/

/-- **C2.** In every run of marker-step calls, the phase changes from idle to
in-break only in a step whose clock has reached `next_marker_time`, and from
in-break to idle only in a step whose clock is at least `ad_duration` past the
recorded `ad_break_start_time`. -/
theorem c2_transitions_only_on_time (cfg : StreamConfig) (s0 : AdBreakState)
    (inputs : List (Clock × Playlist)) (k : ℕ) (hk : k < inputs.length) :
    ((stateAt cfg s0 inputs k).in_ad_break = false →
      (stateAt cfg s0 inputs (k + 1)).in_ad_break = true →
      (stateAt cfg s0 inputs k).next_marker_time
        ≤ (inputs.getD k dfltInput).1.now)
    ∧ ((stateAt cfg s0 inputs k).in_ad_break = true →
      (stateAt cfg s0 inputs (k + 1)).in_ad_break = false →
      ∃ st, (stateAt cfg s0 inputs k).ad_break_start_time = some st
        ∧ (cfg.ad_duration : ℚ) ≤ (inputs.getD k dfltInput).1.now - st) := by
  have hs := stateAt_succ_of_lt cfg inputs k s0 hk
  constructor
  · intro h1 h2
    rw [hs] at h2
    exact stepState_open_due h1 h2
  · intro h1 h2
    rw [hs] at h2
    exact stepState_close_cond h1 h2

/-- **C2, witness.** A one-step run in which the idle-to-in-break transition
fires at its due time. -/
theorem c2_transitions_only_on_time_witness :
    0 < [((clockEx 0), plAEx)].length
    ∧ (((stateAt cfgEx idle0 [((clockEx 0), plAEx)] 0).in_ad_break = false →
        (stateAt cfgEx idle0 [((clockEx 0), plAEx)] 1).in_ad_break = true →
        (stateAt cfgEx idle0 [((clockEx 0), plAEx)] 0).next_marker_time
          ≤ ([((clockEx 0), plAEx)].getD 0 dfltInput).1.now)
      ∧ ((stateAt cfgEx idle0 [((clockEx 0), plAEx)] 0).in_ad_break = true →
        (stateAt cfgEx idle0 [((clockEx 0), plAEx)] 1).in_ad_break = false →
        ∃ st, (stateAt cfgEx idle0 [((clockEx 0), plAEx)] 0).ad_break_start_time
            = some st
          ∧ (cfgEx.ad_duration : ℚ)
              ≤ ([((clockEx 0), plAEx)].getD 0 dfltInput).1.now - st)) :=
  ⟨by simp, c2_transitions_only_on_time cfgEx idle0 [((clockEx 0), plAEx)] 0
    (by simp)⟩

/-! ### Claim C5 -/

/-- **C5.** A single call of the marker step attempts at most one transition:
it emits at most one marker, a call starting in a break can only emit cue-in
markers and either closes the break or leaves the state untouched, and a call
starting idle can only emit cue-out markers and either opens a break or leaves
the state untouched.  In particular no single pass can both end a break and
start a new one. -/
theorem c5_one_transition_per_cycle (cfg : StreamConfig) (s : AdBreakState)
    (c : Clock) (pl : Playlist) :
    (process_playlist_for_markers cfg s c pl).2.2.length ≤ 1
    ∧ (s.in_ad_break = true →
        (∀ mk ∈ (process_playlist_for_markers cfg s c pl).2.2,
          mk.kind = MarkerKind.cueIn)
        ∧ ((process_playlist_for_markers cfg s c pl).1.in_ad_break = false
            ∨ (process_playlist_for_markers cfg s c pl).1 = s))
    ∧ (s.in_ad_break = false →
        (∀ mk ∈ (process_playlist_for_markers cfg s c pl).2.2,
          mk.kind = MarkerKind.cueOut)
        ∧ ((process_playlist_for_markers cfg s c pl).1.in_ad_break = true
            ∨ (process_playlist_for_markers cfg s c pl).1 = s)) := by
  refine ⟨?_, ?_, ?_⟩
  · cases h1 : s.in_ad_break with
    | false =>
      by_cases h2 : s.next_marker_time ≤ c.now
      · rw [step_idle_due h1 h2]
        by_cases hpl : pl.segments = []
        · rw [insert_cue_out_empty hpl]
          simp
        · rw [(@insert_cue_out_nonempty cfg s c.tOut pl hpl).2]
          simp
      · rw [step_idle_not_due h1 h2]
        simp
    | true =>
      cases hst : s.ad_break_start_time with
      | none =>
        rw [step_break_none h1 hst]
        simp
      | some st =>
        by_cases h3 : (cfg.ad_duration : ℚ) ≤ c.now - st
        · rw [step_break_done h1 hst h3]
          by_cases hpl : pl.segments = []
          · rw [insert_cue_in_empty hpl]
            simp
          · rw [@insert_cue_in_nonempty cfg s c.tIn pl hpl]
            simp
        · rw [step_break_early h1 hst h3]
          simp
  · intro h1
    constructor
    · intro mk hmk
      cases hkind : mk.kind with
      | cueOut =>
        exact absurd ((marker_mem_cueOut hmk hkind).1)
          (by rw [h1]; exact Bool.false_ne_true ∘ Eq.symm)
      | cueIn => rfl
    · by_cases hpost :
          (process_playlist_for_markers cfg s c pl).1.in_ad_break = true
      · exact Or.inr (@stepState_in_break_stable cfg s (c, pl) h1 hpost)
      · exact Or.inl (by simpa using hpost)
  · intro h1
    constructor
    · intro mk hmk
      cases hkind : mk.kind with
      | cueIn =>
        exact absurd ((marker_mem_cueIn hmk hkind).1)
          (by rw [h1]; exact Bool.false_ne_true)
      | cueOut => rfl
    · by_cases hpost :
          (process_playlist_for_markers cfg s c pl).1.in_ad_break = true
      · exact Or.inl hpost
      · exact Or.inr (@stepState_idle_stable cfg s (c, pl) h1 (by simpa using hpost))

/-- **C5, witness.** The single-transition property evaluated on a concrete
idle state, clock, and one-segment snapshot. -/
theorem c5_one_transition_per_cycle_witness :
    (process_playlist_for_markers cfgEx idle0 (clockEx 0) plAEx).2.2.length ≤ 1
    ∧ (idle0.in_ad_break = true →
        (∀ mk ∈ (process_playlist_for_markers cfgEx idle0 (clockEx 0) plAEx).2.2,
          mk.kind = MarkerKind.cueIn)
        ∧ ((process_playlist_for_markers cfgEx idle0 (clockEx 0) plAEx).1.in_ad_break = false
            ∨ (process_playlist_for_markers cfgEx idle0 (clockEx 0) plAEx).1 = idle0))
    ∧ (idle0.in_ad_break = false →
        (∀ mk ∈ (process_playlist_for_markers cfgEx idle0 (clockEx 0) plAEx).2.2,
          mk.kind = MarkerKind.cueOut)
        ∧ ((process_playlist_for_markers cfgEx idle0 (clockEx 0) plAEx).1.in_ad_break = true
            ∨ (process_playlist_for_markers cfgEx idle0 (clockEx 0) plAEx).1 = idle0)) :=
  c5_one_transition_per_cycle cfgEx idle0 (clockEx 0) plAEx

/-! ### Claim C3 -/

/-- While a run stays in a break, the ad-break state does not move. -/
theorem stateAt_stable_in_break (cfg : StreamConfig) (s0 : AdBreakState)
    (inputs : List (Clock × Playlist)) (i j : ℕ) (hj : j < inputs.length)
    (hin : (stateAt cfg s0 inputs (i + 1)).in_ad_break = true)
    (hbet : ∀ k, i ≤ k → k < j →
      (stateAt cfg s0 inputs (k + 1)).in_ad_break = true) :
    ∀ d, i + 1 + d ≤ j →
      stateAt cfg s0 inputs (i + 1 + d) = stateAt cfg s0 inputs (i + 1) := by
  intro d
  induction d with
  | zero => intro _; rfl
  | succ d ih =>
    intro hd
    have hd' : i + 1 + d ≤ j := by omega
    have hlt : i + 1 + d < inputs.length := by omega
    have heq := ih hd'
    have hstep := stateAt_succ_of_lt cfg inputs (i + 1 + d) s0 hlt
    have hpre : (stateAt cfg s0 inputs (i + 1 + d)).in_ad_break = true := by
      rw [heq]; exact hin
    have hpost :
        (stateAt cfg s0 inputs (i + 1 + d + 1)).in_ad_break = true := by
      have := hbet (i + 1 + d) (by omega) (by omega)
      simpa using this
    have hpost' :
        (stepState cfg (stateAt cfg s0 inputs (i + 1 + d))
          (inputs.getD (i + 1 + d) dfltInput)).in_ad_break = true := by
      rw [← hstep]; exact hpost
    have : stateAt cfg s0 inputs (i + 1 + d + 1)
        = stateAt cfg s0 inputs (i + 1 + d) := by
      rw [hstep]
      exact stepState_in_break_stable hpre hpost'
    rw [show i + 1 + (d + 1) = i + 1 + d + 1 by omega, this, heq]

/-- **C3.** If the `i`-th marker step of a run emits a break-start (cue-out)
marker and the `j`-th step is the first step after it that leaves the break
(every intermediate state is still in the break) and emits a break-end
(cue-in) marker, then the event id carried by the break-end marker equals the
event id assigned when that break's break-start marker was emitted. -/
theorem c3_matching_event_ids (cfg : StreamConfig) (s0 : AdBreakState)
    (inputs : List (Clock × Playlist)) (i j : ℕ) (mo mi : SCTE35Marker)
    (hij : i < j) (hj : j < inputs.length)
    (hmo : mo ∈ evAt cfg s0 inputs i) (hko : mo.kind = MarkerKind.cueOut)
    (hmi : mi ∈ evAt cfg s0 inputs j) (hki : mi.kind = MarkerKind.cueIn)
    (hbet : ∀ k, i ≤ k → k < j →
      (stateAt cfg s0 inputs (k + 1)).in_ad_break = true) :
    mi.event_id = mo.event_id := by
  have hi : i < inputs.length := lt_trans hij hj
  have hout := marker_mem_cueOut hmo hko
  have hpost : stateAt cfg s0 inputs (i + 1)
      = { in_ad_break := true
          ad_break_event_id := some (pyInt (inputs.getD i dfltInput).1.tOut)
          ad_break_start_time := some (inputs.getD i dfltInput).1.now
          next_marker_time := (stateAt cfg s0 inputs i).next_marker_time } := by
    rw [stateAt_succ_of_lt cfg inputs i s0 hi]
    exact hout.2.2
  have hin1 : (stateAt cfg s0 inputs (i + 1)).in_ad_break = true := by
    rw [hpost]
  have hstable := stateAt_stable_in_break cfg s0 inputs i j hj hin1 hbet
    (j - (i + 1)) (by omega)
  have hjeq : stateAt cfg s0 inputs j = stateAt cfg s0 inputs (i + 1) := by
    rw [show i + 1 + (j - (i + 1)) = j by omega] at hstable
    exact hstable
  have hinj := marker_mem_cueIn hmi hki
  rw [hinj.2, hjeq, hpost, hout.2.1]

/-- **C3, witness.** A two-step run: at step 0 the break opens at time 0 with
event id 7 (the cue-out clock reads 7), and at step 1 the break closes at
time 5 with a cue-in marker carrying the same event id. -/
theorem c3_matching_event_ids_witness :
    (0 : ℕ) < 1
    ∧ 1 < inputsEx.length
    ∧ moEx ∈ evAt cfgEx idle0 inputsEx 0
    ∧ moEx.kind = MarkerKind.cueOut
    ∧ miEx ∈ evAt cfgEx idle0 inputsEx 1
    ∧ miEx.kind = MarkerKind.cueIn
    ∧ (∀ k, 0 ≤ k → k < 1 →
        (stateAt cfgEx idle0 inputsEx (k + 1)).in_ad_break = true)
    ∧ miEx.event_id = moEx.event_id := by
  have hmo : moEx ∈ evAt cfgEx idle0 inputsEx 0 := by
    norm_num [evAt, stepMarkers, stateAt, runState, process_playlist_for_markers,
      insert_cue_out, cfgEx, idle0, plAEx, dfltInput, pyInt, inputsEx,
      clockOutEx, clockInEx, moEx]
  have hmi : miEx ∈ evAt cfgEx idle0 inputsEx 1 := by
    norm_num [evAt, stepMarkers, stateAt, runState, stepState,
      process_playlist_for_markers, insert_cue_out, insert_cue_in, cfgEx, idle0,
      plAEx, dfltInput, pyInt, inputsEx, clockOutEx, clockInEx, miEx]
  have hbet : ∀ k, 0 ≤ k → k < 1 →
      (stateAt cfgEx idle0 inputsEx (k + 1)).in_ad_break = true := by
    intro k _ hk
    interval_cases k
    norm_num [stateAt, runState, stepState, process_playlist_for_markers,
      insert_cue_out, cfgEx, idle0, plAEx, pyInt, inputsEx, clockOutEx]
  exact ⟨Nat.zero_lt_one, by simp [inputsEx], hmo, rfl, hmi, rfl, hbet,
    c3_matching_event_ids cfgEx idle0 inputsEx 0 1 moEx miEx
      Nat.zero_lt_one (by simp [inputsEx]) hmo rfl hmi rfl hbet⟩

/-! ### Directory lemmas -/

theorem fsLookup_fsSet_self (n : String) (d : FileData) (fs : FS) :
    fsLookup (fsSet n d fs) n = some d := by
  simp [fsLookup, fsSet, alookup]

theorem alookup_adelete {α : Type} (n m : String) :
    ∀ l : List (String × α),
      alookup (adelete n l) m = if m = n then none else alookup l m := by
  intro l
  induction l with
  | nil => simp [adelete, alookup]
  | cons e rest ih =>
    obtain ⟨p, d⟩ := e
    by_cases hpn : p = n
    · rw [adelete, if_pos hpn, ih]
      by_cases hmn : m = n
      · rw [if_pos hmn, if_pos hmn]
      · rw [if_neg hmn, if_neg hmn, alookup, if_neg (by rw [hpn]; exact fun h => hmn h.symm)]
    · rw [adelete, if_neg hpn, alookup, ih]
      by_cases hpm : p = m
      · rw [if_pos hpm, if_neg (by rw [← hpm]; exact fun h => hpn h), alookup, if_pos hpm]
      · rw [if_neg hpm, alookup, if_neg hpm]

theorem fsLookup_cons (m n : String) (d : FileData) (rest : FS) :
    fsLookup ((m, d) :: rest) n = if m = n then some d else fsLookup rest n :=
  rfl

theorem fsLookup_fsSet_ne (n m : String) (d : FileData) (fs : FS)
    (h : m ≠ n) : fsLookup (fsSet n d fs) m = fsLookup fs m := by
  rw [fsSet, fsLookup_cons, if_neg (fun hh => h hh.symm)]
  rw [show fsLookup (adelete n fs) m = alookup (adelete n fs) m from rfl]
  rw [alookup_adelete n m fs, if_neg h]
  rfl

theorem fsLookup_download_all (dlOk : String → Bool) (f : String → String) :
    ∀ (l : List String) (fs : FS) (n : String),
      fsLookup (download_all dlOk f l fs) n
        = if n ∈ l ∧ dlOk n = true then some (FileData.segData (f n))
          else fsLookup fs n := by
  intro l
  induction l with
  | nil => intro fs n; simp [download_all]
  | cons m rest ih =>
    intro fs n
    rw [download_all, ih]
    by_cases hmem : n ∈ rest ∧ dlOk n = true
    · rw [if_pos hmem, if_pos ⟨List.mem_cons_of_mem m hmem.1, hmem.2⟩]
    · rw [if_neg hmem]
      by_cases hnm : n = m
      · subst hnm
        by_cases hok : dlOk n = true
        · rw [if_pos hok, fsLookup_fsSet_self,
            if_pos ⟨List.mem_cons_self n rest, hok⟩]
        · rw [if_neg hok, if_neg (fun hc => hok hc.2)]
      · have hiff : ¬(n ∈ m :: rest ∧ dlOk n = true) := by
          intro hc
          rcases List.mem_cons.mp hc.1 with h | h
          · exact hnm h
          · exact hmem ⟨h, hc.2⟩
        by_cases hok : dlOk m = true
        · rw [if_pos hok, fsLookup_fsSet_ne m n _ fs hnm, if_neg hiff]
        · rw [if_neg hok, if_neg hiff]

theorem fsLookup_cleanupList (ref : List String) :
    ∀ (fs : FS) (n : String),
      fsLookup (cleanupList ref fs) n
        = if pyEndsWith n ".ts" = true ∧ n ∉ ref then none else fsLookup fs n := by
  intro fs
  induction fs with
  | nil =>
    intro n
    rw [cleanupList]
    by_cases h : pyEndsWith n ".ts" = true ∧ n ∉ ref
    · rw [if_pos h]; rfl
    · rw [if_neg h]
  | cons e rest ih =>
    obtain ⟨m, d⟩ := e
    intro n
    rw [cleanupList]
    by_cases hdel : pyEndsWith m ".ts" = true ∧ m ∉ ref
    · rw [if_pos hdel, ih]
      by_cases hcond : pyEndsWith n ".ts" = true ∧ n ∉ ref
      · rw [if_pos hcond, if_pos hcond]
      · have hmn : ¬ m = n := fun h => hcond (h ▸ hdel)
        rw [if_neg hcond, if_neg hcond, fsLookup_cons, if_neg hmn]
    · rw [if_neg hdel, fsLookup_cons]
      by_cases hmn : m = n
      · rw [if_pos hmn]
        have hcond : ¬(pyEndsWith n ".ts" = true ∧ n ∉ ref) := by
          rw [← hmn]; exact hdel
        rw [if_neg hcond, fsLookup_cons, if_pos hmn]
      · rw [if_neg hmn, ih]
        by_cases hcond : pyEndsWith n ".ts" = true ∧ n ∉ ref
        · rw [if_pos hcond, if_pos hcond]
        · rw [if_neg hcond, if_neg hcond, fsLookup_cons, if_neg hmn]

theorem mem_segments_to_download {fs : FS} {pl : Playlist} {n : String} :
    n ∈ segments_to_download fs pl
      ↔ n ∈ segmentNames pl ∧ (fsLookup fs n).isNone = true := by
  simp [segments_to_download, List.mem_filter]

/-- Pointwise contents of the directory after one full reconciliation pass
(downloads, all against the pre-pass directory, then pruning). -/
theorem fsLookup_reconcile (dlOk : String → Bool) (f : String → String)
    (fs : FS) (pl : Playlist) (n : String) :
    fsLookup (reconcile true dlOk f fs pl) n
      = if pyEndsWith n ".ts" = true ∧ n ∉ segmentNames pl then none
        else if n ∈ segments_to_download fs pl ∧ dlOk n = true
          then some (FileData.segData (f n))
          else fsLookup fs n := by
  rw [reconcile, cleanup_old_segments, fsLookup_cleanupList]
  by_cases hcond : pyEndsWith n ".ts" = true ∧ n ∉ segmentNames pl
  · rw [if_pos hcond, if_pos hcond]
  · rw [if_neg hcond, if_neg hcond, process_segments, if_pos rfl,
      fsLookup_download_all]

/-! ### Claim C4 -/

/-- **C4.** After one reconciliation pass in which every scheduled download
succeeds (and the directory is writable), the set of `.ts` files on disk
equals exactly the set of segment filenames referenced by the snapshot; a
referenced file already present is neither re-downloaded (it is never
scheduled) nor deleted and keeps its contents, a referenced absent file is
scheduled and present afterwards, and an unreferenced `.ts` file is deleted.
The snapshot's referenced names are assumed to end in `.ts`, as the claim's
identification of segment files with `.ts` files presupposes. -/
theorem c4_reconcile_exact (dlOk : String → Bool) (fetchContent : String → String)
    (fs : FS) (pl : Playlist)
    (hts : ∀ n ∈ segmentNames pl, pyEndsWith n ".ts" = true)
    (hok : ∀ n ∈ segments_to_download fs pl, dlOk n = true) :
    (∀ n, ((fsLookup (reconcile true dlOk fetchContent fs pl) n).isSome
        ∧ pyEndsWith n ".ts" = true)
        ↔ n ∈ segmentNames pl)
    ∧ (∀ n, n ∈ segmentNames pl → (fsLookup fs n).isSome →
        fsLookup (reconcile true dlOk fetchContent fs pl) n = fsLookup fs n
        ∧ n ∉ segments_to_download fs pl)
    ∧ (∀ n, n ∈ segmentNames pl → fsLookup fs n = none →
        n ∈ segments_to_download fs pl
        ∧ (fsLookup (reconcile true dlOk fetchContent fs pl) n).isSome)
    ∧ (∀ n, pyEndsWith n ".ts" = true → n ∉ segmentNames pl →
        fsLookup (reconcile true dlOk fetchContent fs pl) n = none) := by
  refine ⟨?_, ?_, ?_, ?_⟩
  · intro n
    rw [fsLookup_reconcile]
    constructor
    · rintro ⟨hsome, hn⟩
      by_contra hmem
      rw [if_pos ⟨hn, hmem⟩] at hsome
      simp at hsome
    · intro hmem
      refine ⟨?_, hts n hmem⟩
      rw [if_neg (fun hc => hc.2 hmem)]
      by_cases hdl : n ∈ segments_to_download fs pl ∧ dlOk n = true
      · rw [if_pos hdl]; rfl
      · rw [if_neg hdl]
        by_cases habs : (fsLookup fs n).isNone = true
        · exact absurd ⟨mem_segments_to_download.mpr ⟨hmem, habs⟩,
            hok n (mem_segments_to_download.mpr ⟨hmem, habs⟩)⟩ hdl
        · simpa [Option.isNone_iff_eq_none, ← Option.ne_none_iff_isSome]
            using habs
  · intro n hmem hsome
    have hnotdl : n ∉ segments_to_download fs pl := by
      intro hdl
      have := (mem_segments_to_download.mp hdl).2
      rw [Option.isNone_iff_eq_none] at this
      rw [this] at hsome
      simp at hsome
    refine ⟨?_, hnotdl⟩
    rw [fsLookup_reconcile, if_neg (fun hc => hc.2 hmem),
      if_neg (fun hc => hnotdl hc.1)]
  · intro n hmem hnone
    have hdl : n ∈ segments_to_download fs pl :=
      mem_segments_to_download.mpr ⟨hmem, by rw [hnone]; rfl⟩
    refine ⟨hdl, ?_⟩
    rw [fsLookup_reconcile, if_neg (fun hc => hc.2 hmem),
      if_pos ⟨hdl, hok n hdl⟩]
    rfl
  · intro n hn hmem
    rw [fsLookup_reconcile, if_pos ⟨hn, hmem⟩]

/-! ### Claim C10 -/

/-- **C10.** The pruning step only ever deletes files whose name ends in
`.ts`: every file whose name does not end in `.ts` (in particular the written
`playlist.m3u8`) is still present with unchanged data after any call of the
cleanup step, whatever the snapshot references. -/
theorem c10_cleanup_spares_non_ts (fs : FS) (pl : Playlist) (n : String)
    (h : ¬ pyEndsWith n ".ts" = true) :
    fsLookup (cleanup_old_segments fs pl) n = fsLookup fs n := by
  rw [cleanup_old_segments, fsLookup_cleanupList, if_neg (fun hc => h hc.1)]

/-- **C10, witness.** A written `playlist.m3u8` survives a cleanup pass with
unchanged data. -/
theorem c10_cleanup_spares_non_ts_witness :
    (¬ pyEndsWith "playlist.m3u8" ".ts" = true)
    ∧ fsLookup
        (cleanup_old_segments [("playlist.m3u8", FileData.playlistData [])] plBEx)
        "playlist.m3u8"
      = fsLookup [("playlist.m3u8", FileData.playlistData [])] "playlist.m3u8" :=
  ⟨by decide,
    c10_cleanup_spares_non_ts [("playlist.m3u8", FileData.playlistData [])] plBEx
      "playlist.m3u8" (by decide)⟩

/-- **C4, witness.** Scenario B of the spec: the directory holds `a.ts` and
`b.ts`, the snapshot references `b.ts` and `d.ts`, every download succeeds;
afterwards `a.ts` is gone, `d.ts` is present, `b.ts` was neither scheduled nor
touched. -/
theorem c4_reconcile_exact_witness :
    (∀ n ∈ segmentNames plBEx, pyEndsWith n ".ts" = true)
    ∧ (∀ n ∈ segments_to_download fsEx plBEx, allOkEx n = true)
    ∧ ((∀ n, ((fsLookup (reconcile true allOkEx fetchEx fsEx plBEx) n).isSome
          ∧ pyEndsWith n ".ts" = true)
          ↔ n ∈ segmentNames plBEx)
      ∧ (∀ n, n ∈ segmentNames plBEx → (fsLookup fsEx n).isSome →
          fsLookup (reconcile true allOkEx fetchEx fsEx plBEx) n = fsLookup fsEx n
          ∧ n ∉ segments_to_download fsEx plBEx)
      ∧ (∀ n, n ∈ segmentNames plBEx → fsLookup fsEx n = none →
          n ∈ segments_to_download fsEx plBEx
          ∧ (fsLookup (reconcile true allOkEx fetchEx fsEx plBEx) n).isSome)
      ∧ (∀ n, pyEndsWith n ".ts" = true → n ∉ segmentNames plBEx →
          fsLookup (reconcile true allOkEx fetchEx fsEx plBEx) n = none)) :=
  ⟨by decide, fun n _ => rfl,
    c4_reconcile_exact allOkEx fetchEx fsEx plBEx (by decide) (fun n _ => rfl)⟩

/-! ### Claim C6 -/

/-- **C6.** In a cycle whose playlist fetch fails (the fetch step yields no
snapshot), the whole worker state — in particular the four ad-break fields —
is unchanged, no write, download or prune action is performed, the worker does
not stop, and a later cycle started from the resulting state behaves exactly
as if started from the original state. -/
theorem c6_fetch_failure_skips_cycle (cfg : StreamConfig) (env : CycleEnv)
    (ws : WorkerState) (hf : env.fetched = none) :
    process_stream_cycle cfg env ws = (ws, [CycleAction.sleep 2])
    ∧ (process_stream_cycle cfg env ws).1.proc.ad = ws.proc.ad
    ∧ (process_stream_cycle cfg env ws).1.proc.running = ws.proc.running
    ∧ (process_stream_cycle cfg env ws).1.proc.stop_event = ws.proc.stop_event
    ∧ (process_stream_cycle cfg env ws).1.fs = ws.fs
    ∧ (∀ a ∈ (process_stream_cycle cfg env ws).2, ∀ n : String,
        a ≠ CycleAction.write ∧ a ≠ CycleAction.download n
        ∧ a ≠ CycleAction.prune n)
    ∧ (∀ env2 : CycleEnv,
        process_stream_cycle cfg env2 (process_stream_cycle cfg env ws).1
          = process_stream_cycle cfg env2 ws) := by
  have h : process_stream_cycle cfg env ws = (ws, [CycleAction.sleep 2]) := by
    rw [process_stream_cycle, hf]
  refine ⟨h, by rw [h], by rw [h], by rw [h], by rw [h], ?_, ?_⟩
  · rw [h]
    intro a ha n
    have : a = CycleAction.sleep 2 := by simpa using ha
    subst this
    refine ⟨by simp, by simp, by simp⟩
  · intro env2
    rw [h]

/-- **C6, witness.** A concrete failed-fetch cycle. -/
theorem c6_fetch_failure_skips_cycle_witness :
    envNoneEx.fetched = none
    ∧ (process_stream_cycle cfgEx envNoneEx wsEx = (wsEx, [CycleAction.sleep 2])
      ∧ (process_stream_cycle cfgEx envNoneEx wsEx).1.proc.ad = wsEx.proc.ad
      ∧ (process_stream_cycle cfgEx envNoneEx wsEx).1.proc.running
          = wsEx.proc.running
      ∧ (process_stream_cycle cfgEx envNoneEx wsEx).1.proc.stop_event
          = wsEx.proc.stop_event
      ∧ (process_stream_cycle cfgEx envNoneEx wsEx).1.fs = wsEx.fs
      ∧ (∀ a ∈ (process_stream_cycle cfgEx envNoneEx wsEx).2, ∀ n : String,
          a ≠ CycleAction.write ∧ a ≠ CycleAction.download n
          ∧ a ≠ CycleAction.prune n)
      ∧ (∀ env2 : CycleEnv,
          process_stream_cycle cfgEx env2 (process_stream_cycle cfgEx envNoneEx wsEx).1
            = process_stream_cycle cfgEx env2 wsEx)) :=
  ⟨rfl, c6_fetch_failure_skips_cycle cfgEx envNoneEx wsEx rfl⟩

/-! ### Claim C7 -/

/-- **C7.** When saving the playlist hits a permission-denied error the owning
worker stops: its `running` flag becomes false and its stop event is set (and
nothing is written).  When saving hits any other error the call changes
nothing at all — the worker keeps running and no action is performed. -/
theorem c7_save_error_policy (pl : Playlist) (ws : WorkerState) :
    ((save_playlist SaveOutcome.permissionDenied pl ws).1.proc.running = false
      ∧ (save_playlist SaveOutcome.permissionDenied pl ws).1.proc.stop_event = true
      ∧ (save_playlist SaveOutcome.permissionDenied pl ws).1.fs = ws.fs
      ∧ (save_playlist SaveOutcome.permissionDenied pl ws).2 = [])
    ∧ ((save_playlist SaveOutcome.otherError pl ws).1 = ws
      ∧ (save_playlist SaveOutcome.otherError pl ws).2 = []) :=
  ⟨⟨rfl, rfl, rfl, rfl⟩, rfl, rfl⟩

/-! ### Claim C8 -/

theorem abs_pyRound_sub_le (q : ℚ) : |((pyRound q : ℤ) : ℚ) - q| ≤ 1 / 2 := by
  rw [pyRound]
  by_cases ht : q - (⌊q⌋ : ℚ) = 1 / 2
  · rw [if_pos ht]
    by_cases he : ⌊q⌋ % 2 = 0
    · rw [if_pos he, abs_le]
      constructor <;> linarith
    · rw [if_neg he]
      push_cast
      rw [abs_le]
      constructor <;> linarith
  · rw [if_neg ht]
    rw [abs_sub_comm]
    exact abs_sub_round q

theorem pyRound_nearest (q : ℚ) (m : ℤ) :
    |((pyRound q : ℤ) : ℚ) - q| ≤ |(m : ℚ) - q| := by
  rcases eq_or_ne m (pyRound q) with h | h
  · rw [h]
  · have hne : m - pyRound q ≠ 0 := sub_ne_zero.mpr h
    have h0 := Int.one_le_abs hne
    have h1 : (1 : ℚ) ≤ |(m : ℚ) - ((pyRound q : ℤ) : ℚ)| := by
      have : ((1 : ℤ) : ℚ) ≤ ((|m - pyRound q| : ℤ) : ℚ) := by exact_mod_cast h0
      rw [Int.cast_abs, Int.cast_sub] at this
      simpa using this
    have h2 := abs_pyRound_sub_le q
    have h3 : |(m : ℚ) - ((pyRound q : ℤ) : ℚ)|
        ≤ |(m : ℚ) - q| + |q - ((pyRound q : ℤ) : ℚ)| := abs_sub_le _ _ _
    have h4 : |q - ((pyRound q : ℤ) : ℚ)| = |((pyRound q : ℤ) : ℚ) - q| :=
      abs_sub_comm _ _
    linarith

/-- **C8, counterexample.** The claim says every EXTINF duration in the
written text is rewritten to its nearest integer.  The source regex
`#EXTINF:([0-9]+(?:\.[0-9]+)?),` only matches an unsigned decimal numeral, so
a negative duration — which the playlist parser accepts from a hostile
upstream — is written back verbatim.  Concretely: a snapshot whose single
segment has duration `-3/2` is written with the EXTINF value still `-3/2`,
which is not an integer at all, hence not the nearest integer to `-3/2`. -/
theorem c8_counterexample :
    (dumps plNegEx)[0]? = some (PLine.extinf (-(3 / 2)))
    ∧ fsLookup (save_playlist SaveOutcome.ok plNegEx wsEx).1.fs "playlist.m3u8"
        = some (FileData.playlistData (roundDumps plNegEx))
    ∧ (roundDumps plNegEx)[0]? = some (PLine.extinf (-(3 / 2)))
    ∧ (∀ n : ℤ, (n : ℚ) ≠ -(3 / 2)) := by
  refine ⟨rfl, fsLookup_fsSet_self _ _ _, ?_, ?_⟩
  · rw [roundDumps, List.getElem?_map]
    norm_num [dumps, plNegEx, roundExtinfLine]
  · intro n h
    have h2 : (2 : ℚ) * (n : ℚ) = -3 := by rw [h]; norm_num
    have h3 : (2 * n : ℤ) = -3 := by exact_mod_cast h2
    omega

/-- **C8, amended.** The playlist text written by a successful save is the
serialized snapshot with every EXTINF duration that the source regex matches
— the nonnegative ones, rendered as unsigned decimal numerals — replaced by
its Python-rounded value, a nearest integer to the original duration (no
other integer is strictly closer); an EXTINF duration outside the regex's
numeral pattern (a negative one) is written back unchanged. -/
theorem c8_extinf_rounded_nearest (pl : Playlist) (ws : WorkerState) (i : ℕ)
    (d : ℚ) (h : (dumps pl)[i]? = some (PLine.extinf d)) :
    fsLookup (save_playlist SaveOutcome.ok pl ws).1.fs "playlist.m3u8"
      = some (FileData.playlistData (roundDumps pl))
    ∧ (0 ≤ d →
        (roundDumps pl)[i]? = some (PLine.extinf ((pyRound d : ℤ) : ℚ))
        ∧ (∀ m : ℤ, |((pyRound d : ℤ) : ℚ) - d| ≤ |(m : ℚ) - d|))
    ∧ (¬ 0 ≤ d → (roundDumps pl)[i]? = some (PLine.extinf d)) := by
  refine ⟨fsLookup_fsSet_self _ _ _, ?_, ?_⟩
  · intro hd
    refine ⟨?_, fun m => pyRound_nearest d m⟩
    rw [roundDumps, List.getElem?_map, h]
    simp [roundExtinfLine, if_pos hd]
  · intro hd
    rw [roundDumps, List.getElem?_map, h]
    simp [roundExtinfLine, if_neg hd]

/-- **C8, amended, witness.** A snapshot with one segment of duration 5.5
(nonnegative, so the regex matches): the written EXTINF value is 6, a nearest
integer to 5.5. -/
theorem c8_extinf_rounded_nearest_witness :
    (dumps plHalfEx)[0]? = some (PLine.extinf (11 / 2))
    ∧ (0 : ℚ) ≤ 11 / 2
    ∧ fsLookup (save_playlist SaveOutcome.ok plHalfEx wsEx).1.fs "playlist.m3u8"
        = some (FileData.playlistData (roundDumps plHalfEx))
    ∧ ((roundDumps plHalfEx)[0]?
        = some (PLine.extinf ((pyRound (11 / 2) : ℤ) : ℚ))
      ∧ (∀ m : ℤ, |((pyRound (11 / 2) : ℤ) : ℚ) - (11 / 2 : ℚ)|
          ≤ |(m : ℚ) - (11 / 2 : ℚ)|)) :=
  ⟨rfl, by norm_num,
    (c8_extinf_rounded_nearest plHalfEx wsEx 0 (11 / 2) rfl).1,
    (c8_extinf_rounded_nearest plHalfEx wsEx 0 (11 / 2) rfl).2.1 (by norm_num)⟩

/-! ### Claim C9 -/

theorem alookup_cons {α : Type} (m n : String) (d : α) (rest : List (String × α)) :
    alookup ((m, d) :: rest) n = if m = n then some d else alookup rest n :=
  rfl

theorem not_mem_sdelete (n : String) : ∀ l : List String, n ∉ sdelete n l := by
  intro l
  induction l with
  | nil => simp [sdelete]
  | cons m rest ih =>
    rw [sdelete]
    by_cases h : m = n
    · rw [if_pos h]; exact ih
    · rw [if_neg h]
      intro hmem
      rcases List.mem_cons.mp hmem with hh | hh
      · exact h hh.symm
      · exact ih hh

/-- **C9.** Registering a stream whose id is already present returns `false`
and leaves the registry and the persisted configuration set unchanged;
registering a fresh id returns `true`, records the new worker under that id in
all three maps, and persists the updated configuration set.  Removing an
unknown id returns `false` and changes nothing; removing a present id signals
stop to its processor (running flag false, stop event set), removes the id
from all three maps regardless of whether the bounded join timed out, persists
the updated configuration set, and returns `true`. -/
theorem c9_registry_contract (m : StreamManager) (cfg : StreamConfig) (now : ℚ)
    (sid : String) (joinTimedOut : Bool) :
    ((alookup m.streams cfg.stream_id).isSome = true →
      add_stream m cfg now = (false, m))
    ∧ (alookup m.streams cfg.stream_id = none →
      (add_stream m cfg now).1 = true
      ∧ alookup (add_stream m cfg now).2.streams cfg.stream_id
          = some (initProcessor cfg now)
      ∧ alookup (add_stream m cfg now).2.configs cfg.stream_id = some cfg
      ∧ cfg.stream_id ∈ (add_stream m cfg now).2.threads
      ∧ (add_stream m cfg now).2.persisted
          = (add_stream m cfg now).2.configs.map Prod.snd)
    ∧ (alookup m.streams sid = none →
      remove_stream m sid joinTimedOut = (false, m, none))
    ∧ (∀ proc, alookup m.streams sid = some proc →
      (remove_stream m sid joinTimedOut).1 = true
      ∧ alookup (remove_stream m sid joinTimedOut).2.1.streams sid = none
      ∧ alookup (remove_stream m sid joinTimedOut).2.1.configs sid = none
      ∧ sid ∉ (remove_stream m sid joinTimedOut).2.1.threads
      ∧ (remove_stream m sid joinTimedOut).2.1.persisted
          = (remove_stream m sid joinTimedOut).2.1.configs.map Prod.snd
      ∧ (remove_stream m sid joinTimedOut).2.2 = some (stop proc)
      ∧ (stop proc).running = false ∧ (stop proc).stop_event = true) := by
  refine ⟨?_, ?_, ?_, ?_⟩
  · intro h
    rw [add_stream, if_pos h]
  · intro h
    have h' : ¬ (alookup m.streams cfg.stream_id).isSome = true := by
      rw [h]; simp
    rw [add_stream, if_neg h']
    refine ⟨rfl, ?_, ?_, ?_, rfl⟩
    · show alookup ((cfg.stream_id, initProcessor cfg now) :: m.streams)
        cfg.stream_id = some (initProcessor cfg now)
      rw [alookup_cons, if_pos rfl]
    · show alookup ((cfg.stream_id, cfg) :: m.configs) cfg.stream_id = some cfg
      rw [alookup_cons, if_pos rfl]
    · exact List.mem_cons_self _ _
  · intro h
    rw [remove_stream, h]
  · intro proc h
    rw [remove_stream, h]
    refine ⟨rfl, ?_, ?_, ?_, rfl, rfl, rfl, rfl⟩
    · show alookup (adelete sid m.streams) sid = none
      rw [alookup_adelete, if_pos rfl]
    · show alookup (adelete sid m.configs) sid = none
      rw [alookup_adelete, if_pos rfl]
    · exact not_mem_sdelete sid m.threads

/-- **C9, witness.** The four registry outcomes on concrete managers: a
duplicate and a removal on a one-stream registry, a fresh registration and an
unknown removal on an empty registry. -/
theorem c9_registry_contract_witness :
    ((alookup mgrOneEx.streams cfgEx.stream_id).isSome = true
      ∧ add_stream mgrOneEx cfgEx 0 = (false, mgrOneEx))
    ∧ (alookup mgrEx.streams cfgEx.stream_id = none
      ∧ (add_stream mgrEx cfgEx 0).1 = true
      ∧ alookup (add_stream mgrEx cfgEx 0).2.streams cfgEx.stream_id
          = some (initProcessor cfgEx 0)
      ∧ alookup (add_stream mgrEx cfgEx 0).2.configs cfgEx.stream_id = some cfgEx
      ∧ cfgEx.stream_id ∈ (add_stream mgrEx cfgEx 0).2.threads
      ∧ (add_stream mgrEx cfgEx 0).2.persisted
          = (add_stream mgrEx cfgEx 0).2.configs.map Prod.snd)
    ∧ (alookup mgrEx.streams "zzz" = none
      ∧ remove_stream mgrEx "zzz" false = (false, mgrEx, none))
    ∧ (alookup mgrOneEx.streams "s1" = some (initProcessor cfgEx 0)
      ∧ (remove_stream mgrOneEx "s1" true).1 = true
      ∧ alookup (remove_stream mgrOneEx "s1" true).2.1.streams "s1" = none
      ∧ alookup (remove_stream mgrOneEx "s1" true).2.1.configs "s1" = none
      ∧ "s1" ∉ (remove_stream mgrOneEx "s1" true).2.1.threads
      ∧ (remove_stream mgrOneEx "s1" true).2.1.persisted
          = (remove_stream mgrOneEx "s1" true).2.1.configs.map Prod.snd
      ∧ (remove_stream mgrOneEx "s1" true).2.2
          = some (stop (initProcessor cfgEx 0))
      ∧ (stop (initProcessor cfgEx 0)).running = false
      ∧ (stop (initProcessor cfgEx 0)).stop_event = true) :=
  ⟨⟨rfl, (c9_registry_contract mgrOneEx cfgEx 0 "x" false).1 rfl⟩,
   ⟨rfl, (c9_registry_contract mgrEx cfgEx 0 "x" false).2.1 rfl⟩,
   ⟨rfl, (c9_registry_contract mgrEx cfgEx 0 "zzz" false).2.2.1 rfl⟩,
   ⟨rfl, (c9_registry_contract mgrOneEx cfgEx 0 "s1" true).2.2.2
      (initProcessor cfgEx 0) rfl⟩⟩

end Scte35
